import Mathlib

/-!
Shallow embedding of py3status/modules/mpd_status.py.

The three relevant pieces of the source are:

* `parse_template(instr, value_getter, found=True)` — an mpc-like template
  evaluator that recurses over a single shared character iterator.  All
  recursive calls (for the characters `[`, `|` and `&`) consume from the
  same iterator, so we model the iterator as an explicit `List Char` that
  every call returns together with its `(text, found)` result.  The
  function is defined structurally on a fuel argument; since every
  recursive call of the source consumes at least one character of the
  stream, fuel `cs.length + 1` always suffices (proved below), and the
  fuel-free function `parseC` is the actual model.

* `song_attr(song, attr)` — the attribute resolver.  Python exceptions are
  modelled with `Except Unit`: the branches of the source that catch
  `KeyError`/`ValueError` return `.ok`, the `mtime`/`mdate` branches call
  `song['last-modified']` and `strptime` without a handler, so a missing
  key or malformed date is `.error ()`.

* the truncation step of `Py3status.current_track`:
  `if len(text) > self.max_width: text = text[:-self.max_width - 3] + '...'`.
-/

namespace MpdStatus

/-- Left brace character, written by code point to keep it out of literals. -/
def lbrace : Char := Char.ofNat 123

/-- Right brace character. -/
def rbrace : Char := Char.ofNat 125

/-- Test for membership of the source's escape-code set `'abtnvfr'`
(`if ln in 'abtnvfr'` in `parse_template`). -/
def isEscCode (c : Char) : Bool :=
  c = 'a' || c = 'b' || c = 't' || c = 'n' || c = 'v' || c = 'f' || c = 'r'

/-- Translation of one escape code, as produced by the source's
`ast.literal_eval('"\\{}"'.format(ln))` for `ln in 'abtnvfr'`. -/
def escChar (c : Char) : Char :=
  if c = 'a' then Char.ofNat 7
  else if c = 'b' then Char.ofNat 8
  else if c = 't' then Char.ofNat 9
  else if c = 'n' then Char.ofNat 10
  else if c = 'v' then Char.ofNat 11
  else if c = 'f' then Char.ofNat 12
  else Char.ofNat 13

/-- Embedding of `parse_template` from mpd_status.py, with an explicit fuel
argument for structural recursion.  `cs` is the shared character iterator,
`acc` the joined contents of the frame's `ret` list, `found` the flag.
The result carries the remaining iterator so that recursive sub-parses
(`[`, `|`, `&`) continue from where the sub-parse stopped, exactly as the
shared-iterator source does.  The placeholder branch models
`itertools.takewhile`, which also consumes the terminating end character
(hence the `drop 1` after `dropWhile`); `#` and `\` model
`next(instr, default)` via `headD`/`tail`. -/
def parseGo (vg : String → String) :
    Nat → List Char → String → Bool → String × Bool × List Char
  | 0, cs, acc, found => (acc, found, cs)
  | _ + 1, [], acc, found => (acc, found, [])
  | fuel + 1, c :: rest, acc, found =>
    if c = '%' ∨ c = lbrace then
      let endchar := if c = '%' then '%' else rbrace
      let rest2 := (rest.dropWhile (fun e => e ≠ endchar)).drop 1
      let value := vg (String.mk (rest.takeWhile (fun e => e ≠ endchar)))
      if value ≠ "" then parseGo vg fuel rest2 (acc ++ value) true
      else parseGo vg fuel rest2 acc false
    else if c = '#' then
      parseGo vg fuel rest.tail (acc.push (rest.headD '#')) found
    else if c = '\\' then
      let d := rest.headD '\\'
      parseGo vg fuel rest.tail
        (acc.push (if isEscCode d then escChar d else d)) found
    else if c = '[' then
      let r := parseGo vg fuel rest "" found
      parseGo vg fuel r.2.2 (acc ++ r.1) r.2.1
    else if c = ']' then
      if found then (acc, true, rest) else ("", false, rest)
    else if c = '|' then
      let r := parseGo vg fuel rest "" found
      if found then parseGo vg fuel r.2.2 acc found
      else if r.2.1 then parseGo vg fuel r.2.2 (acc ++ r.1) true
      else ("", false, r.2.2)
    else if c = '&' then
      let r := parseGo vg fuel rest "" found
      if found && r.2.1 then parseGo vg fuel r.2.2 (acc ++ r.1) found
      else ("", false, r.2.2)
    else
      parseGo vg fuel rest (acc.push c) found

/-- Fuel-free form of one invocation of `parse_template` on the character
stream `cs`; fuel `cs.length + 1` always suffices (`parseGo_fuel_irrel`). -/
def parseC (vg : String → String) (cs : List Char) (acc : String)
    (found : Bool) : String × Bool × List Char :=
  parseGo vg (cs.length + 1) cs acc found

/-- Embedding of the top-level call `parse_template(instr, value_getter)`
(default `found=True`): the `(text, found)` pair the source returns, the
exhausted iterator dropped. -/
def parse_template (vg : String → String) (instr : String) : String × Bool :=
  let r := parseC vg instr.data "" true
  (r.1, r.2.1)

/-- Python dictionaries are modelled as association lists; `song[k]` /
`song.get(k, '')` go through this lookup. -/
def lookupSong (song : List (String × String)) (k : String) : Option String :=
  (song.find? (fun p => p.1 = k)).map Prod.snd

/-- Value of a list of decimal digit characters. -/
def digitsVal (ds : List Char) : Nat :=
  ds.foldl (fun n c => n * 10 + (c.toNat - 48)) 0

/-- Whitespace in the sense of Python's `int()` stripping. -/
def pyIsSpace (c : Char) : Bool :=
  c = ' ' || c = '\t' || c = '\n' || c = '\r' || c = Char.ofNat 11
    || c = Char.ofNat 12

/-- Stripping of leading and trailing whitespace. -/
def stripWS (l : List Char) : List Char :=
  ((l.dropWhile pyIsSpace).reverse.dropWhile pyIsSpace).reverse

/-- Embedding of Python `int(s)` on strings: surrounding whitespace is
stripped, an optional single sign is allowed, then one or more decimal
digits; anything else raises `ValueError`, modelled as `none`. -/
def pyInt (s : String) : Option Int :=
  match stripWS s.data with
  | [] => none
  | c :: rest =>
    let signed : Int × List Char :=
      if c = '-' then (-1, rest)
      else if c = '+' then (1, rest)
      else (1, c :: rest)
    if signed.2.isEmpty then none
    else if signed.2.all Char.isDigit then
      some (signed.1 * (digitsVal signed.2 : Int))
    else none

/-- Zero-padding of the seconds field, `'{:02d}'`. -/
def pad2 (n : Nat) : String :=
  if n < 10 then "0" ++ toString n else toString n

/-- Formatting of `'{:d}:{:02d}'.format(*divmod(duration, 60))` for a
positive duration (the source only reaches it when `duration > 0`). -/
def formatTime (d : Int) : String :=
  toString (d.toNat / 60) ++ ":" ++ pad2 (d.toNat % 60)

/-- Parsed fields of a `'%Y-%m-%dT%H:%M:%SZ'` timestamp. -/
structure MTime where
  year : Nat
  month : Nat
  day : Nat
  hour : Nat
  minute : Nat
  second : Nat
deriving DecidableEq, Repr

/-- Checks that a character list is exactly `n` decimal digits. -/
def allDigitsLen (n : Nat) (ds : List Char) : Bool :=
  ds.length = n && ds.all Char.isDigit

/-- Embedding of `datetime.datetime.strptime(date_str, '%Y-%m-%dT%H:%M:%SZ')`
(the source's `parse_mtime`): the fixed shape `YYYY-MM-DDTHH:MM:SSZ` with
field range checks; a malformed string raises `ValueError`, modelled as
`none`. -/
def strptimeZ (s : String) : Option MTime :=
  match s.data with
  | [y1, y2, y3, y4, d1, m1, m2, d2, dd1, dd2, t, h1, h2, c1, mi1, mi2, c2,
      s1, s2, z] =>
    if allDigitsLen 4 [y1, y2, y3, y4] && d1 = '-' && allDigitsLen 2 [m1, m2]
        && d2 = '-' && allDigitsLen 2 [dd1, dd2] && t = 'T'
        && allDigitsLen 2 [h1, h2] && c1 = ':' && allDigitsLen 2 [mi1, mi2]
        && c2 = ':' && allDigitsLen 2 [s1, s2] && z = 'Z' then
      let mt : MTime :=
        ⟨digitsVal [y1, y2, y3, y4], digitsVal [m1, m2], digitsVal [dd1, dd2],
          digitsVal [h1, h2], digitsVal [mi1, mi2], digitsVal [s1, s2]⟩
      if 1 ≤ mt.month && mt.month ≤ 12 && 1 ≤ mt.day && mt.day ≤ 31
          && mt.hour ≤ 23 && mt.minute ≤ 59 && mt.second ≤ 61 then
        some mt
      else none
    else none
  | _ => none

/-- Rendering stand-in for `strftime('%c')` (locale full date-and-time);
no claim depends on the exact text, only on the call's success. -/
def strftimeC (t : MTime) : String :=
  toString t.year ++ "-" ++ pad2 t.month ++ "-" ++ pad2 t.day ++ " "
    ++ pad2 t.hour ++ ":" ++ pad2 t.minute ++ ":" ++ pad2 t.second

/-- Rendering stand-in for `strftime('%x')` (locale date only). -/
def strftimeX (t : MTime) : String :=
  toString t.year ++ "-" ++ pad2 t.month ++ "-" ++ pad2 t.day

/-- Embedding of `song_attr(song, attr)`.  `Except Unit String` separates
normal returns (`.ok`) from uncaught Python exceptions (`.error ()`):
the `time` and `position` branches wrap their lookup and `int` conversion
in `try/except (KeyError, ValueError)` and so always return, while the
`mtime`/`mdate` branches index `song['last-modified']` and call `strptime`
with no handler. -/
def song_attr (song : List (String × String)) (attr : String) :
    Except Unit String :=
  if attr = "time" then
    .ok (match lookupSong song "time" with
      | none => ""
      | some s =>
        match pyInt s with
        | none => ""
        | some d => if d > 0 then formatTime d else "")
  else if attr = "position" then
    .ok (match lookupSong song "pos" with
      | none => ""
      | some s =>
        match pyInt s with
        | none => ""
        | some n => toString (n + 1))
  else if attr = "mtime" then
    match lookupSong song "last-modified" with
    | none => .error ()
    | some s =>
      match strptimeZ s with
      | none => .error ()
      | some t => .ok (strftimeC t)
  else if attr = "mdate" then
    match lookupSong song "last-modified" with
    | none => .error ()
    | some s =>
      match strptimeZ s with
      | none => .error ()
      | some t => .ok (strftimeX t)
  else
    .ok ((lookupSong song attr).getD "")

/-- Embedding of the Python slice `text[:-(k)]` for `k > 0`: all but the
last `k` characters, empty when `k ≥ len(text)`. -/
def pySliceDropLast (text : String) (k : Nat) : String :=
  String.mk (text.data.take (text.length - k))

/-- Embedding of the truncation step of `Py3status.current_track`:
`if len(text) > self.max_width: text = text[:-self.max_width - 3] + '...'`. -/
def truncateTrack (max_width : Nat) (text : String) : String :=
  if text.length > max_width then pySliceDropLast text (max_width + 3) ++ "..."
  else text

/-! Auxiliary list facts used for the fuel bookkeeping. -/

theorem dropWhile_len_le (p : Char → Bool) (l : List Char) :
    (l.dropWhile p).length ≤ l.length := by
  induction l with
  | nil => simp
  | cons c rest ih =>
    simp only [List.dropWhile]
    split
    · simp only [List.length_cons]; omega
    · simp only [List.length_cons]; omega

theorem restAfterKey_le (endchar : Char) (rest : List Char) :
    ((rest.dropWhile (fun e => e ≠ endchar)).drop 1).length ≤ rest.length := by
  have h1 := dropWhile_len_le (fun e => e ≠ endchar) rest
  have h2 := List.length_drop 1 (rest.dropWhile (fun e => e ≠ endchar))
  omega

/-- Stream consumption: one invocation of the parser only ever consumes
characters, so the returned remainder of the iterator is no longer than
the input. -/
theorem parseGo_consume (vg : String → String) :
    ∀ fuel cs acc found,
      ((parseGo vg fuel cs acc found).2.2).length ≤ cs.length := by
  intro fuel
  induction fuel with
  | zero => intro cs acc found; simp [parseGo]
  | succ n ih =>
    intro cs acc found
    cases cs with
    | nil => simp [parseGo]
    | cons c rest =>
      simp only [parseGo, List.length_cons]
      by_cases h1 : c = '%' ∨ c = lbrace
      · rw [if_pos h1]
        generalize (if c = '%' then '%' else rbrace) = ec
        have hk := restAfterKey_le ec rest
        split
        · exact le_trans (le_trans (ih _ _ _) hk) (Nat.le_succ _)
        · exact le_trans (le_trans (ih _ _ _) hk) (Nat.le_succ _)
      · rw [if_neg h1]
        by_cases h2 : c = '#'
        · rw [if_pos h2]
          have ht : rest.tail.length ≤ rest.length := by
            rw [List.length_tail]; omega
          exact le_trans (le_trans (ih _ _ _) ht) (Nat.le_succ _)
        · rw [if_neg h2]
          by_cases h3 : c = '\\'
          · rw [if_pos h3]
            have ht : rest.tail.length ≤ rest.length := by
              rw [List.length_tail]; omega
            exact le_trans (le_trans (ih _ _ _) ht) (Nat.le_succ _)
          · rw [if_neg h3]
            by_cases h4 : c = '['
            · rw [if_pos h4]
              exact le_trans (le_trans (ih _ _ _)
                (le_trans (ih _ _ _) (le_refl _))) (Nat.le_succ _)
            · rw [if_neg h4]
              by_cases h5 : c = ']'
              · rw [if_pos h5]
                split
                · simp only; omega
                · simp only; omega
              · rw [if_neg h5]
                by_cases h6 : c = '|'
                · rw [if_pos h6]
                  split
                  · exact le_trans (le_trans (ih _ _ _) (ih _ _ _))
                      (Nat.le_succ _)
                  · split
                    · exact le_trans (le_trans (ih _ _ _) (ih _ _ _))
                        (Nat.le_succ _)
                    · exact le_trans (ih _ _ _) (Nat.le_succ _)
                · rw [if_neg h6]
                  by_cases h7 : c = '&'
                  · rw [if_pos h7]
                    split
                    · exact le_trans (le_trans (ih _ _ _) (ih _ _ _))
                        (Nat.le_succ _)
                    · exact le_trans (ih _ _ _) (Nat.le_succ _)
                  · rw [if_neg h7]
                    exact le_trans (ih _ _ _) (Nat.le_succ _)

/-- Fuel irrelevance: any fuel strictly above the stream length produces
the same result, because every recursive call of the source strictly
shrinks the shared iterator. -/
theorem parseGo_fuel_irrel (vg : String → String) :
    ∀ f1 f2 cs acc found, cs.length < f1 → cs.length < f2 →
      parseGo vg f1 cs acc found = parseGo vg f2 cs acc found := by
  intro f1
  induction f1 with
  | zero => intro f2 cs acc found h1 _; omega
  | succ n ih =>
    intro f2 cs acc found h1 h2
    cases f2 with
    | zero => omega
    | succ m =>
      cases cs with
      | nil => simp [parseGo]
      | cons c rest =>
        have hr : rest.length < n := by
          simp only [List.length_cons] at h1; omega
        have hr2 : rest.length < m := by
          simp only [List.length_cons] at h2; omega
        simp only [parseGo]
        by_cases hc1 : c = '%' ∨ c = lbrace
        · rw [if_pos hc1, if_pos hc1]
          generalize (if c = '%' then '%' else rbrace) = ec
          have hk := restAfterKey_le ec rest
          split
          · exact ih m _ _ _ (by omega) (by omega)
          · exact ih m _ _ _ (by omega) (by omega)
        · rw [if_neg hc1, if_neg hc1]
          by_cases hc2 : c = '#'
          · rw [if_pos hc2, if_pos hc2]
            have ht : rest.tail.length ≤ rest.length := by
              rw [List.length_tail]; omega
            exact ih m _ _ _ (by omega) (by omega)
          · rw [if_neg hc2, if_neg hc2]
            by_cases hc3 : c = '\\'
            · rw [if_pos hc3, if_pos hc3]
              have ht : rest.tail.length ≤ rest.length := by
                rw [List.length_tail]; omega
              exact ih m _ _ _ (by omega) (by omega)
            · rw [if_neg hc3, if_neg hc3]
              by_cases hc4 : c = '['
              · rw [if_pos hc4, if_pos hc4]
                rw [← ih m rest "" found hr hr2]
                have hcons := parseGo_consume vg n rest "" found
                exact ih m _ _ _ (by omega) (by omega)
              · rw [if_neg hc4, if_neg hc4]
                by_cases hc5 : c = ']'
                · rw [if_pos hc5, if_pos hc5]
                · rw [if_neg hc5, if_neg hc5]
                  by_cases hc6 : c = '|'
                  · rw [if_pos hc6, if_pos hc6]
                    rw [← ih m rest "" found hr hr2]
                    have hcons := parseGo_consume vg n rest "" found
                    split
                    · exact ih m _ _ _ (by omega) (by omega)
                    · split
                      · exact ih m _ _ _ (by omega) (by omega)
                      · rfl
                  · rw [if_neg hc6, if_neg hc6]
                    by_cases hc7 : c = '&'
                    · rw [if_pos hc7, if_pos hc7]
                      rw [← ih m rest "" found hr hr2]
                      have hcons := parseGo_consume vg n rest "" found
                      split
                      · exact ih m _ _ _ (by omega) (by omega)
                      · rfl
                    · rw [if_neg hc7, if_neg hc7]
                      exact ih m _ _ _ (by omega) (by omega)

/-- Sufficient fuel computes the fuel-free parser. -/
theorem parseGo_eq_parseC (vg : String → String) (f : Nat) (cs : List Char)
    (acc : String) (found : Bool) (h : cs.length < f) :
    parseGo vg f cs acc found = parseC vg cs acc found :=
  parseGo_fuel_irrel vg f (cs.length + 1) cs acc found h (Nat.lt_succ_self _)

/-- Stream consumption, stated for the fuel-free parser. -/
theorem parseC_consume (vg : String → String) (cs : List Char) (acc : String)
    (found : Bool) : ((parseC vg cs acc found).2.2).length ≤ cs.length :=
  parseGo_consume vg (cs.length + 1) cs acc found

/-- Empty stream: the source's for-loop body never runs and the call
returns the accumulated text and the current flag. -/
theorem parseC_nil (vg : String → String) (acc : String) (found : Bool) :
    parseC vg [] acc found = (acc, found, []) := rfl

/-- One step of the fuel-free parser, mirroring the branches of the
source's for-loop; every recursive occurrence is again fuel-free. -/
theorem parseC_cons (vg : String → String) (c : Char) (rest : List Char)
    (acc : String) (found : Bool) :
    parseC vg (c :: rest) acc found =
      (if c = '%' ∨ c = lbrace then
        (if vg (String.mk (rest.takeWhile
              (fun e => e ≠ (if c = '%' then '%' else rbrace)))) ≠ "" then
          parseC vg ((rest.dropWhile
              (fun e => e ≠ (if c = '%' then '%' else rbrace))).drop 1)
            (acc ++ vg (String.mk (rest.takeWhile
              (fun e => e ≠ (if c = '%' then '%' else rbrace))))) true
        else
          parseC vg ((rest.dropWhile
              (fun e => e ≠ (if c = '%' then '%' else rbrace))).drop 1)
            acc false)
      else if c = '#' then
        parseC vg rest.tail (acc.push (rest.headD '#')) found
      else if c = '\\' then
        parseC vg rest.tail
          (acc.push (if isEscCode (rest.headD '\\') then escChar (rest.headD '\\')
            else rest.headD '\\')) found
      else if c = '[' then
        parseC vg (parseC vg rest "" found).2.2
          (acc ++ (parseC vg rest "" found).1) (parseC vg rest "" found).2.1
      else if c = ']' then
        (if found then (acc, true, rest) else ("", false, rest))
      else if c = '|' then
        (if found then parseC vg (parseC vg rest "" found).2.2 acc found
        else if (parseC vg rest "" found).2.1 then
          parseC vg (parseC vg rest "" found).2.2
            (acc ++ (parseC vg rest "" found).1) true
        else ("", false, (parseC vg rest "" found).2.2))
      else if c = '&' then
        (if found && (parseC vg rest "" found).2.1 then
          parseC vg (parseC vg rest "" found).2.2
            (acc ++ (parseC vg rest "" found).1) found
        else ("", false, (parseC vg rest "" found).2.2))
      else
        parseC vg rest (acc.push c) found) := by
  show parseGo vg (rest.length + 1 + 1) (c :: rest) acc found = _
  simp only [parseGo]
  by_cases hc1 : c = '%' ∨ c = lbrace
  · rw [if_pos hc1, if_pos hc1]
    generalize (if c = '%' then '%' else rbrace) = ec
    have hk := restAfterKey_le ec rest
    split
    · exact parseGo_eq_parseC vg _ _ _ _ (by omega)
    · exact parseGo_eq_parseC vg _ _ _ _ (by omega)
  · rw [if_neg hc1, if_neg hc1]
    have ht : rest.tail.length ≤ rest.length := by rw [List.length_tail]; omega
    by_cases hc2 : c = '#'
    · rw [if_pos hc2, if_pos hc2]
      exact parseGo_eq_parseC vg _ _ _ _ (by omega)
    · rw [if_neg hc2, if_neg hc2]
      by_cases hc3 : c = '\\'
      · rw [if_pos hc3, if_pos hc3]
        exact parseGo_eq_parseC vg _ _ _ _ (by omega)
      · rw [if_neg hc3, if_neg hc3]
        by_cases hc4 : c = '['
        · rw [if_pos hc4, if_pos hc4]
          rw [parseGo_eq_parseC vg _ rest "" found (by omega)]
          have hcons := parseC_consume vg rest "" found
          exact parseGo_eq_parseC vg _ _ _ _ (by omega)
        · rw [if_neg hc4, if_neg hc4]
          by_cases hc5 : c = ']'
          · rw [if_pos hc5, if_pos hc5]
          · rw [if_neg hc5, if_neg hc5]
            by_cases hc6 : c = '|'
            · rw [if_pos hc6, if_pos hc6]
              rw [parseGo_eq_parseC vg _ rest "" found (by omega)]
              have hcons := parseC_consume vg rest "" found
              split
              · exact parseGo_eq_parseC vg _ _ _ _ (by omega)
              · split
                · exact parseGo_eq_parseC vg _ _ _ _ (by omega)
                · rfl
            · rw [if_neg hc6, if_neg hc6]
              by_cases hc7 : c = '&'
              · rw [if_pos hc7, if_pos hc7]
                rw [parseGo_eq_parseC vg _ rest "" found (by omega)]
                have hcons := parseC_consume vg rest "" found
                split
                · exact parseGo_eq_parseC vg _ _ _ _ (by omega)
                · rfl
              · rw [if_neg hc7, if_neg hc7]
                exact parseGo_eq_parseC vg _ _ _ _ (by omega)

/-! String and scanning helpers. -/

theorem string_eq_of_data (a b : String) (h : a.data = b.data) : a = b :=
  congrArg String.mk h

theorem empty_append_str (s : String) : "" ++ s = s := by
  apply string_eq_of_data
  rw [String.data_append]
  rfl

theorem push_append_mk (acc : String) (c : Char) (l : List Char) :
    (acc.push c) ++ String.mk l = acc ++ String.mk (c :: l) := by
  apply string_eq_of_data
  rw [String.data_append, String.data_append, String.data_push]
  simp

theorem append_mk_nil (acc : String) : acc ++ String.mk [] = acc := by
  apply string_eq_of_data
  rw [String.data_append]
  simp [String.mk]

/-- Scanning up to the first occurrence of the stop character `d`:
`itertools.takewhile` collects the prefix before `d` and the iterator is
left after `d`. -/
theorem scan_to_stop (d : Char) (l rest : List Char) (h : ∀ c ∈ l, c ≠ d) :
    (l ++ d :: rest).takeWhile (fun e => e ≠ d) = l ∧
    (l ++ d :: rest).dropWhile (fun e => e ≠ d) = d :: rest := by
  induction l with
  | nil =>
    constructor
    · simp [List.takeWhile]
    · simp [List.dropWhile]
  | cons c l ih =>
    have hc : c ≠ d := h c (List.mem_cons_self c l)
    have ih2 := ih (fun x hx => h x (List.mem_cons_of_mem c hx))
    have hpc : (decide (c ≠ d)) = true := by
      simp only [decide_eq_true_eq]; exact hc
    constructor
    · rw [List.cons_append, List.takeWhile_cons, if_pos hpc, ih2.1]
    · rw [List.cons_append, List.dropWhile_cons, if_pos hpc, ih2.2]

/-- Scanning a stream with no occurrence of the stop character consumes
everything as the key. -/
theorem scan_no_stop (d : Char) (l : List Char) (h : ∀ c ∈ l, c ≠ d) :
    l.takeWhile (fun e => e ≠ d) = l ∧ l.dropWhile (fun e => e ≠ d) = [] := by
  induction l with
  | nil => constructor <;> rfl
  | cons c l ih =>
    have hc : c ≠ d := h c (List.mem_cons_self c l)
    have ih2 := ih (fun x hx => h x (List.mem_cons_of_mem c hx))
    have hpc : (decide (c ≠ d)) = true := by
      simp only [decide_eq_true_eq]; exact hc
    constructor
    · rw [List.takeWhile_cons, if_pos hpc, ih2.1]
    · rw [List.dropWhile_cons, if_pos hpc, ih2.2]

/-! Per-character step lemmas, read off `parseC_cons`. -/

/-- Percent placeholder step. -/
theorem parseC_percent (vg : String → String) (rest : List Char)
    (acc : String) (found : Bool) :
    parseC vg ('%' :: rest) acc found =
      if vg (String.mk (rest.takeWhile (fun e => e ≠ '%'))) ≠ "" then
        parseC vg ((rest.dropWhile (fun e => e ≠ '%')).drop 1)
          (acc ++ vg (String.mk (rest.takeWhile (fun e => e ≠ '%')))) true
      else parseC vg ((rest.dropWhile (fun e => e ≠ '%')).drop 1) acc false := by
  rw [parseC_cons, if_pos (Or.inl rfl), if_pos rfl]

/-- Brace placeholder step. -/
theorem parseC_lbrace (vg : String → String) (rest : List Char)
    (acc : String) (found : Bool) :
    parseC vg (lbrace :: rest) acc found =
      if vg (String.mk (rest.takeWhile (fun e => e ≠ rbrace))) ≠ "" then
        parseC vg ((rest.dropWhile (fun e => e ≠ rbrace)).drop 1)
          (acc ++ vg (String.mk (rest.takeWhile (fun e => e ≠ rbrace)))) true
      else parseC vg ((rest.dropWhile (fun e => e ≠ rbrace)).drop 1) acc false := by
  rw [parseC_cons, if_pos (Or.inr rfl),
    if_neg (by decide : ¬(lbrace = '%'))]

/-- Group-opening step. -/
theorem parseC_open (vg : String → String) (rest : List Char) (acc : String)
    (found : Bool) :
    parseC vg ('[' :: rest) acc found =
      parseC vg (parseC vg rest "" found).2.2
        (acc ++ (parseC vg rest "" found).1) (parseC vg rest "" found).2.1 := by
  rw [parseC_cons, if_neg (by decide), if_neg (by decide), if_neg (by decide),
    if_pos rfl]

/-- Group-closing step. -/
theorem parseC_close (vg : String → String) (rest : List Char) (acc : String)
    (found : Bool) :
    parseC vg (']' :: rest) acc found =
      if found then (acc, true, rest) else ("", false, rest) := by
  rw [parseC_cons, if_neg (by decide), if_neg (by decide), if_neg (by decide),
    if_neg (by decide), if_pos rfl]

/-- Alternation step. -/
theorem parseC_pipe (vg : String → String) (rest : List Char) (acc : String)
    (found : Bool) :
    parseC vg ('|' :: rest) acc found =
      if found then parseC vg (parseC vg rest "" found).2.2 acc found
      else if (parseC vg rest "" found).2.1 then
        parseC vg (parseC vg rest "" found).2.2
          (acc ++ (parseC vg rest "" found).1) true
      else ("", false, (parseC vg rest "" found).2.2) := by
  rw [parseC_cons, if_neg (by decide), if_neg (by decide), if_neg (by decide),
    if_neg (by decide), if_neg (by decide), if_pos rfl]

/-- Conjunction step. -/
theorem parseC_amp (vg : String → String) (rest : List Char) (acc : String)
    (found : Bool) :
    parseC vg ('&' :: rest) acc found =
      if found && (parseC vg rest "" found).2.1 then
        parseC vg (parseC vg rest "" found).2.2
          (acc ++ (parseC vg rest "" found).1) found
      else ("", false, (parseC vg rest "" found).2.2) := by
  rw [parseC_cons, if_neg (by decide), if_neg (by decide), if_neg (by decide),
    if_neg (by decide), if_neg (by decide), if_neg (by decide), if_pos rfl]

/-- Characters with no special role in the grammar. -/
def plainChar (c : Char) : Prop :=
  c ≠ '%' ∧ c ≠ lbrace ∧ c ≠ '#' ∧ c ≠ '\\' ∧ c ≠ '[' ∧ c ≠ ']' ∧ c ≠ '|'
    ∧ c ≠ '&'

instance : DecidablePred plainChar := fun c => by
  unfold plainChar; infer_instance

/-- Plain-character step: the character is copied to the output buffer. -/
theorem parseC_plain_step (vg : String → String) (c : Char) (rest : List Char)
    (acc : String) (found : Bool) (h : plainChar c) :
    parseC vg (c :: rest) acc found = parseC vg rest (acc.push c) found := by
  obtain ⟨h1, h2, h3, h4, h5, h6, h7, h8⟩ := h
  rw [parseC_cons, if_neg (by tauto), if_neg h3, if_neg h4, if_neg h5,
    if_neg h6, if_neg h7, if_neg h8]

/-- Runs of plain characters are copied verbatim and leave the flag
untouched. -/
theorem parseC_literal_run (vg : String → String) :
    ∀ (l : List Char) (acc : String) (found : Bool), (∀ c ∈ l, plainChar c) →
      parseC vg l acc found = (acc ++ String.mk l, found, []) := by
  intro l
  induction l with
  | nil => intro acc found _; rw [parseC_nil, append_mk_nil]
  | cons c l ih =>
    intro acc found h
    rw [parseC_plain_step vg c l acc found (h c (List.mem_cons_self c l)),
      ih _ _ (fun x hx => h x (List.mem_cons_of_mem c hx)), push_append_mk]

/-! Claim theorems. -/

/-- Claim C1, counterexample: the resolver is not total — on the empty
song record the field name mtime indexes `song['last-modified']` with no
handler, so the call raises `KeyError` instead of returning empty text. -/
theorem song_attr_mtime_raises : song_attr [] "mtime" = .error () := rfl

/-- Claim C1 (amended): for every field name other than mtime and mdate
the resolver never fails — it returns some text — and on a record with no
data at all it returns empty text; the mtime/mdate branches are the sole
exception, raising on a missing or malformed last-modified value. -/
theorem song_attr_total_except_dates :
    (∀ (song : List (String × String)) (attr : String),
        attr ≠ "mtime" → attr ≠ "mdate" →
          ∃ s, song_attr song attr = .ok s) ∧
    (∀ attr : String, attr ≠ "mtime" → attr ≠ "mdate" →
        song_attr [] attr = .ok "") := by
  constructor
  · intro song attr h1 h2
    unfold song_attr
    split_ifs <;> exact ⟨_, rfl⟩
  · intro attr h1 h2
    unfold song_attr
    split_ifs <;> rfl

/-- Witness for C1 at the concrete field name artist. -/
theorem song_attr_total_except_dates_witness :
    (("artist" : String) ≠ "mtime" ∧ ("artist" : String) ≠ "mdate") ∧
      ∃ s, song_attr [("artist", "x")] "artist" = .ok s :=
  ⟨⟨by decide, by decide⟩,
    song_attr_total_except_dates.1 [("artist", "x")] "artist"
      (by decide) (by decide)⟩

/-- Claim C2, counterexample: the top-level found flag defaults to true,
so the empty template renders with found = true, not false; and the
comment marker makes the two-character literal-free template render
changed. -/
theorem literal_template_found_cex :
    (parse_template (fun _ => "") "").2 = true ∧
      parse_template (fun _ => "") "#a" = ("a", true) := ⟨rfl, rfl⟩

/-- Claim C2 (amended): for every template of plain characters (no
placeholder delimiters, operators, brackets, comment marker or backslash)
render returns the template text unchanged with found = true — the
inherited top-level default — including for the empty template. -/
theorem literal_template_unchanged (vg : String → String) (l : List Char)
    (h : ∀ c ∈ l, plainChar c) :
    parse_template vg (String.mk l) = (String.mk l, true) := by
  simp only [parse_template]
  rw [parseC_literal_run vg l "" true h, empty_append_str]

/-- Witness for C2 on a concrete plain template. -/
theorem literal_template_unchanged_witness :
    (∀ c ∈ ("abc".data), plainChar c) ∧
      parse_template (fun _ => "V") (String.mk "abc".data)
        = (String.mk "abc".data, true) :=
  ⟨by decide, literal_template_unchanged (fun _ => "V") "abc".data (by decide)⟩

/-- Claim C3, counterexample: a group that is implicitly closed at
end-of-input does not behave like one closed by a bracket — its
accumulated text survives even though its found flag is false, whereas an
explicit close would discard it and yield empty output. -/
theorem implicit_close_keeps_text :
    parse_template (fun _ => "") "[%x%abc" = ("abc", false) ∧
      parse_template (fun _ => "") "[%x%abc]" = ("", false) := ⟨rfl, rfl⟩

/-- Claim C3 (amended): a group closed by an explicit bracket whose scope
ends with found = false returns empty text — discarding its accumulation —
and hands found = false to the parent, which adopts the subscope's text
and flag; a group never closed returns, at end-of-input, its accumulated
text and flag as they stand; in particular the unbalanced template with a
resolvable placeholder renders to that placeholder's value with found =
true. -/
theorem optional_group_discard :
    (∀ (vg : String → String) (rest : List Char) (acc : String),
        parseC vg (']' :: rest) acc false = ("", false, rest)) ∧
    (∀ (vg : String → String) (cs : List Char) (acc : String) (found : Bool),
        parseC vg ('[' :: cs) acc found =
          parseC vg (parseC vg cs "" found).2.2
            (acc ++ (parseC vg cs "" found).1) (parseC vg cs "" found).2.1) ∧
    (∀ (vg : String → String) (acc : String) (found : Bool),
        parseC vg [] acc found = (acc, found, [])) ∧
    parse_template (fun s => if s = "a" then "Z" else "") "[%a%"
      = ("Z", true) := by
  refine ⟨?_, ?_, ?_, rfl⟩
  · intro vg rest acc
    rw [parseC_close, if_neg (by decide)]
  · intro vg cs acc found
    exact parseC_open vg cs acc found
  · intro vg acc found
    exact parseC_nil vg acc found

/-- Claim C4: the alternation operator evaluates the remainder as a
sub-parse seeded with the current flag; when the scope is already found
the sub-parse's text is dropped but its stream consumption is kept;
when only the sub-parse is found its text is appended and the scope
becomes found; when neither is found the scope returns empty text and
false; and the fallback example renders the present placeholder. -/
theorem alternation_semantics :
    (∀ (vg : String → String) (cs : List Char) (acc : String),
        parseC vg ('|' :: cs) acc true =
          parseC vg (parseC vg cs "" true).2.2 acc true) ∧
    (∀ (vg : String → String) (cs : List Char) (acc : String),
        parseC vg ('|' :: cs) acc false =
          if (parseC vg cs "" false).2.1 then
            parseC vg (parseC vg cs "" false).2.2
              (acc ++ (parseC vg cs "" false).1) true
          else ("", false, (parseC vg cs "" false).2.2)) ∧
    parse_template (fun s => if s = "present" then "X" else "")
      "[%missing%]|[%present%]" = ("X", true) := by
  refine ⟨?_, ?_, rfl⟩
  · intro vg cs acc
    rw [parseC_pipe, if_pos rfl]
  · intro vg cs acc
    rw [parseC_pipe, if_neg (by decide)]

/-- Claim C5: the conjunction operator evaluates the remainder as a
sub-parse; its text is appended, the flag staying as it was, only when
both the current scope and the sub-parse are found, and otherwise the
scope collapses to empty text and false; the short-circuit example
yields empty output with found = false. -/
theorem conjunction_semantics :
    (∀ (vg : String → String) (cs : List Char) (acc : String) (found : Bool),
        parseC vg ('&' :: cs) acc found =
          if found && (parseC vg cs "" found).2.1 then
            parseC vg (parseC vg cs "" found).2.2
              (acc ++ (parseC vg cs "" found).1) found
          else ("", false, (parseC vg cs "" found).2.2)) ∧
    parse_template (fun s => if s = "a" then "1" else "") "[%a%]&[%b%]"
      = ("", false) :=
  ⟨fun vg cs acc found => parseC_amp vg cs acc found, rfl⟩

set_option maxRecDepth 8192 in
/-- Claim C6, code bug: with the default budget of 120 characters, a
rendered text of 250 characters is turned into the slice dropping only
the LAST 123 characters plus the ellipsis — 130 characters, exceeding
the budget — because the source slices `text[:-max_width - 3]` instead
of `text[:max_width - 3]`. -/
theorem truncation_exceeds_max_width :
    (truncateTrack 120 (String.mk (List.replicate 250 'a'))).length = 130 ∧
      120 < 130 ∧
      truncateTrack 120 (String.mk (List.replicate 250 'a'))
        = String.mk (List.replicate 127 'a') ++ "..." := by
  refine ⟨rfl, by omega, rfl⟩

/-- Claim C7: the time field formats a positive integer duration as
minutes and zero-padded seconds, and yields empty text when the raw value
is absent, non-numeric or not positive; 125 seconds formats as 2:05. -/
theorem time_field_formatting :
    (∀ (song : List (String × String)) (s : String) (d : Int),
        lookupSong song "time" = some s → pyInt s = some d → 0 < d →
          song_attr song "time" = .ok (formatTime d)) ∧
    (∀ song : List (String × String), lookupSong song "time" = none →
        song_attr song "time" = .ok "") ∧
    (∀ (song : List (String × String)) (s : String),
        lookupSong song "time" = some s → pyInt s = none →
          song_attr song "time" = .ok "") ∧
    (∀ (song : List (String × String)) (s : String) (d : Int),
        lookupSong song "time" = some s → pyInt s = some d → d ≤ 0 →
          song_attr song "time" = .ok "") ∧
    formatTime 125 = "2:05" ∧
    song_attr [("time", "125")] "time" = .ok "2:05" ∧
    song_attr [("time", "0")] "time" = .ok "" ∧
    song_attr [] "time" = .ok "" := by
  refine ⟨?_, ?_, ?_, ?_, rfl, rfl, rfl, rfl⟩
  · intro song s d h1 h2 h3
    unfold song_attr
    rw [if_pos rfl]
    simp only [h1, h2]
    rw [if_pos h3]
  · intro song h1
    unfold song_attr
    rw [if_pos rfl]
    simp only [h1]
  · intro song s h1
    intro h2
    unfold song_attr
    rw [if_pos rfl]
    simp only [h1, h2]
  · intro song s d h1 h2 h3
    unfold song_attr
    rw [if_pos rfl]
    simp only [h1, h2]
    rw [if_neg (by omega)]

/-- Witness for C7 at the 125-second record. -/
theorem time_field_formatting_witness :
    (lookupSong [("time", "125")] "time" = some "125"
        ∧ pyInt "125" = some 125 ∧ (0 : Int) < 125) ∧
      song_attr [("time", "125")] "time" = .ok (formatTime 125) :=
  ⟨⟨rfl, by decide, by decide⟩,
    time_field_formatting.1 [("time", "125")] "125" 125 rfl
      (by decide) (by decide)⟩

/-- Claim C8: the parser only ever consumes the shared stream — the
returned remainder is never longer than the input — and any fuel larger
than the stream length computes the same result, so the recursion
bottoms out on every finite template and every invocation returns a
(text, found) pair; the top-level call is the fuel-free computation. -/
theorem parser_terminates :
    (∀ (vg : String → String) (fuel : Nat) (cs : List Char) (acc : String)
        (found : Bool),
        ((parseGo vg fuel cs acc found).2.2).length ≤ cs.length) ∧
    (∀ (vg : String → String) (f1 f2 : Nat) (cs : List Char) (acc : String)
        (found : Bool), cs.length < f1 → cs.length < f2 →
        parseGo vg f1 cs acc found = parseGo vg f2 cs acc found) ∧
    (∀ (vg : String → String) (instr : String),
        parse_template vg instr
          = ((parseC vg instr.data "" true).1,
              (parseC vg instr.data "" true).2.1)) :=
  ⟨parseGo_consume, parseGo_fuel_irrel, fun _ _ => rfl⟩

/-- Witness for C8: two different sufficient fuels on a malformed
template agree. -/
theorem parser_terminates_witness :
    ("[%a%]|x".data.length < 9 ∧ "[%a%]|x".data.length < 50) ∧
      parseGo (fun _ => "") 9 "[%a%]|x".data "" true
        = parseGo (fun _ => "") 50 "[%a%]|x".data "" true :=
  ⟨⟨by decide, by decide⟩,
    parser_terminates.2.1 (fun _ => "") 9 50 "[%a%]|x".data "" true
      (by decide) (by decide)⟩

/-- Claim C9: a field name free of the delimiter characters renders
identically through the percent form and the brace form of the
placeholder syntax. -/
theorem delimiter_equivalence (vg : String → String) (k : List Char)
    (h : ∀ c ∈ k, c ≠ '%' ∧ c ≠ lbrace ∧ c ≠ rbrace) :
    parse_template vg (String.mk ('%' :: (k ++ ['%'])))
      = parse_template vg (String.mk (lbrace :: (k ++ [rbrace]))) := by
  have h1 : ∀ c ∈ k, c ≠ '%' := fun c hc => (h c hc).1
  have h3 : ∀ c ∈ k, c ≠ rbrace := fun c hc => (h c hc).2.2
  have s1 := scan_to_stop '%' k [] h1
  have s2 := scan_to_stop rbrace k [] h3
  simp only [parse_template]
  rw [parseC_percent, parseC_lbrace, s1.1, s1.2, s2.1, s2.2]
  rfl

/-- Witness for C9 on a concrete two-character field name. -/
theorem delimiter_equivalence_witness :
    (∀ c ∈ ("ab".data), c ≠ '%' ∧ c ≠ lbrace ∧ c ≠ rbrace) ∧
      parse_template (fun s => if s = "ab" then "V" else "")
          (String.mk ('%' :: ("ab".data ++ ['%'])))
        = parse_template (fun s => if s = "ab" then "V" else "")
          (String.mk (lbrace :: ("ab".data ++ [rbrace]))) :=
  ⟨by decide,
    delimiter_equivalence (fun s => if s = "ab" then "V" else "") "ab".data
      (by decide)⟩

/-- Claim C10: when a placeholder's start marker is never followed by its
end marker, the whole remaining stream is consumed as the field name, the
resolver's value for it is appended exactly when non-empty, and the call
returns normally with nothing after the marker copied literally. -/
theorem unterminated_placeholder_consumes_all :
    (∀ (vg : String → String) (rest : List Char) (acc : String)
        (found : Bool), (∀ c ∈ rest, c ≠ '%') →
        parseC vg ('%' :: rest) acc found =
          if vg (String.mk rest) ≠ "" then
            (acc ++ vg (String.mk rest), true, [])
          else (acc, false, [])) ∧
    (∀ (vg : String → String) (rest : List Char) (acc : String)
        (found : Bool), (∀ c ∈ rest, c ≠ rbrace) →
        parseC vg (lbrace :: rest) acc found =
          if vg (String.mk rest) ≠ "" then
            (acc ++ vg (String.mk rest), true, [])
          else (acc, false, [])) := by
  constructor
  · intro vg rest acc found h
    have s := scan_no_stop '%' rest h
    rw [parseC_percent, s.1, s.2]
    rfl
  · intro vg rest acc found h
    have s := scan_no_stop rbrace rest h
    rw [parseC_lbrace, s.1, s.2]
    rfl

/-- Witness for C10 on a concrete unterminated placeholder. -/
theorem unterminated_placeholder_consumes_all_witness :
    (∀ c ∈ ("ab".data), c ≠ '%') ∧
      parseC (fun s => if s = "ab" then "V" else "") ('%' :: "ab".data)
        "" true = ("V", true, []) := by
  constructor
  · decide
  · rw [unterminated_placeholder_consumes_all.1
      (fun s => if s = "ab" then "V" else "") "ab".data "" true (by decide)]
    decide

end MpdStatus
